import Mathlib

/-!
Verification of the `ck` model-registry / embedding / reranking pipeline
(`ck-models/src/lib.rs` and `ck-embed/src/mixedbread.rs`).

Modelling conventions:
* Rust's `HashMap<String, _>` is embedded as an association list
  `List (String × _)` whose list order stands for the map's iteration order
  (which in Rust is unspecified and instance-dependent).  `get` is the first
  entry with a matching key; registries built by normal construction have
  `Nodup` keys.
* The tokenizer and the ONNX inference session are external capabilities;
  they are embedded as oracle functions carried by the embedder / reranker
  structures.
* `f32` values are embedded as exact rationals `ℚ` (every finite float is a
  rational); the L2 normalization and the sigmoid, which introduce square
  roots and exponentials, land in `ℝ`.  Numerical claims are settled in this
  exact-arithmetic idealization.
-/

/-! ## Model registry (`ck-models/src/lib.rs`) -/

/-- `ModelConfig` from `ck-models/src/lib.rs`. -/
structure ModelConfig where
  name : String
  provider : String
  dimensions : Nat
  maxTokens : Nat
  description : String
deriving DecidableEq, Repr

/-- `ModelRegistry` from `ck-models/src/lib.rs`; the `HashMap` is an
association list in iteration order. -/
structure ModelRegistry where
  models : List (String × ModelConfig)
  defaultModel : String
deriving DecidableEq, Repr

/-- Rust `Vec::join(", ")`. -/
def joinSep (sep : String) : List String → String
  | [] => ""
  | [x] => x
  | x :: y :: xs => x ++ sep ++ joinSep sep (y :: xs)

/-- A single-quote character as a string (used in the Rust error message). -/
def squote : String := String.singleton (Char.ofNat 39)

namespace ModelRegistry

/-- `ModelRegistry::format_available_models`: joins the map keys in
iteration order. -/
def formatAvailableModels (r : ModelRegistry) : String :=
  joinSep ", " (r.models.map Prod.fst)

/-- `HashMap::get` on the model map (first entry with a matching key). -/
def get (r : ModelRegistry) (key : String) : Option ModelConfig :=
  (r.models.find? (fun p => p.1 == key)).map Prod.snd

/-- `ModelRegistry::resolve_alias_or_name`. -/
def resolveAliasOrName (r : ModelRegistry) (key : String) :
    Option (String × ModelConfig) :=
  match r.get key with
  | some config => some (key, config)
  | none =>
    (r.models.find? (fun p => p.2.name == key)).map (fun p => (p.1, p.2))

/-- `ModelRegistry::get_default_model`. -/
def getDefaultModel (r : ModelRegistry) : Option ModelConfig :=
  r.get r.defaultModel

/-- The message of the "unknown model" error in `ModelRegistry::resolve`. -/
def unknownModelMsg (r : ModelRegistry) (name : String) : String :=
  "Unknown model " ++ squote ++ name ++ squote ++ ". Available models: " ++
    r.formatAvailableModels

/-- `ModelRegistry::resolve`. -/
def resolve (r : ModelRegistry) (requested : Option String) :
    Except String (String × ModelConfig) :=
  match requested with
  | some name =>
    match r.resolveAliasOrName name with
    | some (als, config) => .ok (als, config)
    | none => .error (r.unknownModelMsg name)
  | none =>
    match r.getDefaultModel with
    | some config => .ok (r.defaultModel, config)
    | none => .error "No default model configured in registry"

/-- `ModelRegistry::aliases` (sorted keys). -/
def aliases (r : ModelRegistry) : List String :=
  (r.models.map Prod.fst).mergeSort (fun a b => a ≤ b)

end ModelRegistry

/-- The `Default` instance of `ModelRegistry` (insertion order of the
source). -/
def defaultRegistry : ModelRegistry where
  models :=
    [ ("bge-small",
        { name := "BAAI/bge-small-en-v1.5"
          provider := "fastembed"
          dimensions := 384
          maxTokens := 512
          description := "Small, fast English embedding model" }),
      ("minilm",
        { name := "sentence-transformers/all-MiniLM-L6-v2"
          provider := "fastembed"
          dimensions := 384
          maxTokens := 256
          description := "Lightweight English embedding model" }),
      ("nomic-v1.5",
        { name := "nomic-embed-text-v1.5"
          provider := "fastembed"
          dimensions := 768
          maxTokens := 8192
          description := "High-quality English embedding model with large context window" }),
      ("jina-code",
        { name := "jina-embeddings-v2-base-code"
          provider := "fastembed"
          dimensions := 768
          maxTokens := 8192
          description := "Code-specific embedding model optimized for programming tasks" }),
      ("mxbai-xsmall",
        { name := "mixedbread-ai/mxbai-embed-xsmall-v1"
          provider := "mixedbread"
          dimensions := 384
          maxTokens := 4096
          description := "Mixedbread xsmall embedding model (4k context, 384 dims) optimized for local semantic search" }) ]
  defaultModel := "bge-small"

/-- `RerankModelConfig` from `ck-models/src/lib.rs` (no dimensionality, no
maximum token length). -/
structure RerankModelConfig where
  name : String
  provider : String
  description : String
deriving DecidableEq, Repr

/-! ## Tensor batch builder (`ck-embed/src/mixedbread.rs`) -/

/-- A tokenizer `Encoding`: token ids, attention mask and token-type ids.
`Encoding::len()` is the length of the id list. -/
structure Encoding where
  ids : List Int
  attentionMask : List Int
  typeIds : List Int
deriving DecidableEq, Repr

/-- `encoding.len()` (the tokenizers crate returns `get_ids().len()`). -/
def encLen (e : Encoding) : Nat := e.ids.length

/-- One row of a built tensor: a zero-initialized buffer of `seqLen` slots
whose first `len` slots are copied from `src`
(`for idx in 0..len { buf[row_offset + idx] = src[idx] }`). -/
def fillRow (src : List Int) (len seqLen : Nat) : List Int :=
  (List.range seqLen).map (fun idx => if idx < len then src.getD idx 0 else 0)

/-- `seq_len` as computed in `build_inputs`:
`encodings.iter().map(len).max().unwrap_or(1).min(max_length).max(1)`. -/
def seqLenOf (maxLength : Nat) (encodings : List Encoding) : Nat :=
  max (min (((encodings.map encLen).max?).getD 1) maxLength) 1

/-- The rectangular integer tensors produced by `build_inputs`;
each `Array2` of shape `(batch, seq_len)` is a list of its rows. -/
structure BuiltInputs where
  inputIds : List (List Int)
  attentionMask : List (List Int)
  tokenTypes : Option (List (List Int))
deriving DecidableEq, Repr

/-- The common body of `MixedbreadEmbedder::build_inputs` and
`MixedbreadReranker::build_inputs` (the two are textually identical in the
source): pad/truncate every encoding to `seqLenOf`, and build the token-type
array only when the session requires it, leaving a row all-zero when its
encoding produced no type ids. -/
def buildBatch (maxLength : Nat) (requiresTokenTypeIds : Bool)
    (encodings : List Encoding) : BuiltInputs :=
  let seqLen := seqLenOf maxLength encodings
  { inputIds :=
      encodings.map (fun e => fillRow e.ids (min (encLen e) seqLen) seqLen)
    attentionMask :=
      encodings.map
        (fun e => fillRow e.attentionMask (min (encLen e) seqLen) seqLen)
    tokenTypes :=
      if requiresTokenTypeIds then
        some (encodings.map (fun e =>
          if e.typeIds.isEmpty then List.replicate seqLen 0
          else fillRow e.typeIds (min (encLen e) seqLen) seqLen))
      else none }

/-! ## Output post-processor -/

/-- A dynamic-rank tensor (`ArrayViewD<f32>`) in row-major order; `f32`
values are embedded as exact rationals. -/
structure NdTensor where
  shape : List Nat
  data : List ℚ

/-- `t.ndim()`. -/
def NdTensor.ndim (t : NdTensor) : Nat := t.shape.length

/-- `normalize_row`: copy up to `min(row.len(), dim)` values into a
zero-initialized buffer of length `dim`, accumulate the squared norm over
the copied region, and scale the copied region by `1/sqrt(norm)` when the
norm is strictly positive. -/
noncomputable def normalizeRow (row : List ℚ) (dim : Nat) : List ℝ :=
  let take := min row.length dim
  let copied := row.take take
  let norm : ℚ := (copied.map (fun v => v * v)).sum
  if norm > 0 then
    copied.map (fun v : ℚ => (v : ℝ) * (Real.sqrt (norm : ℝ))⁻¹) ++
      List.replicate (dim - take) 0
  else
    copied.map (fun v : ℚ => (v : ℝ)) ++ List.replicate (dim - take) 0

/-- The row of a rank-2 row-major tensor `(b, c)` at batch index `i`. -/
def NdTensor.row2 (t : NdTensor) (c i : Nat) : List ℚ :=
  (t.data.drop (i * c)).take c

/-- The first token's vector of batch row `i` of a rank-3 row-major tensor
`(b, s, c)` (`matrix.index_axis(Axis(0), 0)`). -/
def NdTensor.firstToken3 (t : NdTensor) (s c i : Nat) : List ℚ :=
  (t.data.drop (i * (s * c))).take c

/-- `MixedbreadEmbedder::normalize`: rank dispatch over the raw output
tensor. -/
noncomputable def normalizeTensor (t : NdTensor) (dim : Nat) :
    Except String (List (List ℝ)) :=
  match t.shape with
  | [b, c] =>
    .ok ((List.range b).map (fun i => normalizeRow (t.row2 c i) dim))
  | [b, s, c] =>
    .ok ((List.range b).map (fun i => normalizeRow (t.firstToken3 s c i) dim))
  | other =>
    .error ("Unexpected embedding tensor rank: " ++ toString other.length)

/-! ## Embedder facade -/

/-- An ONNX session capability: its declared input names and its forward
pass (`session.run` followed by `try_extract_array`). -/
structure Session where
  inputNames : List String
  run : BuiltInputs → Except String NdTensor

/-- `MixedbreadEmbedder` (the download/session-load plumbing of `new` is an
external capability; `tokenize` is the tokenizer's `encode(text, true)`). -/
structure MixedbreadEmbedder where
  session : Session
  tokenize : String → Except String Encoding
  dim : Nat
  maxLength : Nat
  modelName : String
  requiresTokenTypeIds : Bool

/-- The field assignments of `MixedbreadEmbedder::new`:
`dim = config.dimensions`, `max_length = config.max_tokens`,
`requires_token_type_ids` from the session's declared input names. -/
def MixedbreadEmbedder.new (config : ModelConfig) (sess : Session)
    (tokenize : String → Except String Encoding) : MixedbreadEmbedder where
  session := sess
  tokenize := tokenize
  dim := config.dimensions
  maxLength := config.maxTokens
  modelName := config.name
  requiresTokenTypeIds := sess.inputNames.any (fun n => n == "token_type_ids")

/-- `MixedbreadEmbedder::build_inputs`: encode every text (fail-fast), then
build the batch tensors. -/
def MixedbreadEmbedder.buildInputs (m : MixedbreadEmbedder)
    (texts : List String) : Except String BuiltInputs := do
  let encodings ← texts.mapM m.tokenize
  pure (buildBatch m.maxLength m.requiresTokenTypeIds encodings)

/-- `MixedbreadEmbedder::embed`. -/
noncomputable def MixedbreadEmbedder.embed (m : MixedbreadEmbedder)
    (texts : List String) : Except String (List (List ℝ)) :=
  if texts.isEmpty then .ok []
  else do
    let inputs ← m.buildInputs texts
    let tensor ← m.session.run inputs
    normalizeTensor tensor m.dim

/-! ## Reranker facade -/

/-- Modelled from the spec: `RerankResult` is declared in
`ck-embed/src/reranker.rs`, which is not part of the sources here; its
fields (query string, document string, score in `[0,1]`) are fixed by the
spec's data model and by the construction site in `mixedbread.rs`. -/
structure RerankResult where
  query : String
  document : String
  score : ℝ

/-- `MixedbreadReranker` (tokenizePair is the tokenizer's
`encode(EncodeInput::Dual(query, doc), true)`). -/
structure MixedbreadReranker where
  session : Session
  tokenizePair : String → String → Except String Encoding
  maxLength : Nat
  requiresTokenTypeIds : Bool

/-- The field assignments of `MixedbreadReranker::new`: `max_length` is the
literal `512`, ignoring the `RerankModelConfig` (which declares no maximum
length). -/
def MixedbreadReranker.new (_config : RerankModelConfig) (sess : Session)
    (tokenizePair : String → String → Except String Encoding) :
    MixedbreadReranker where
  session := sess
  tokenizePair := tokenizePair
  maxLength := 512
  requiresTokenTypeIds := sess.inputNames.any (fun n => n == "token_type_ids")

/-- `MixedbreadReranker::build_inputs`: dual-encode every (query, document)
pair (fail-fast), then build the batch tensors. -/
def MixedbreadReranker.buildInputs (r : MixedbreadReranker) (query : String)
    (documents : List String) : Except String BuiltInputs := do
  let encodings ← documents.mapM (fun doc => r.tokenizePair query doc)
  pure (buildBatch r.maxLength r.requiresTokenTypeIds encodings)

/-- `into_dimensionality::<Ix2>()`: succeeds exactly on rank-2 tensors,
yielding the list of rows. -/
def toIx2 (t : NdTensor) : Except String (List (List ℚ)) :=
  match t.shape with
  | [b, c] => .ok ((List.range b).map (fun i => t.row2 c i))
  | _ => .error "tensor dimensionality mismatch"

/-- The per-row logit:
`row.get(0).copied().unwrap_or_else(|| row.iter().copied().next().unwrap_or(0.0))`
— both lookups are the first element, defaulting to `0.0`. -/
def headLogit (row : List ℚ) : ℚ := row.headD 0

/-- `1.0 / (1.0 + (-logit).exp())`. -/
noncomputable def sigmoid (logit : ℚ) : ℝ :=
  1 / (1 + Real.exp (-(logit : ℝ)))

/-- `MixedbreadReranker::rerank`. -/
noncomputable def MixedbreadReranker.rerank (r : MixedbreadReranker)
    (query : String) (documents : List String) :
    Except String (List RerankResult) :=
  if documents.isEmpty then .ok []
  else do
    let inputs ← r.buildInputs query documents
    let tensor ← r.session.run inputs
    let logits ← toIx2 tensor
    .ok (logits.enum.map (fun p =>
      { query := query
        document := documents.getD p.1 ""
        score := sigmoid (headLogit p.2) }))

/-! ## Helper lemmas -/

lemma toList_append (s t : String) : (s ++ t).toList = s.toList ++ t.toList :=
  String.data_append s t

/-- `sub` occurs in `msg` as a contiguous substring. -/
def strIncl (sub msg : String) : Prop := sub.toList <:+: msg.toList

lemma infix_append_right {a t : List Char} (s : List Char)
    (h : a <:+: t) : a <:+: s ++ t := by
  obtain ⟨u, v, huv⟩ := h
  exact ⟨s ++ u, v, by rw [← huv]; simp⟩

lemma infix_append_left {a s : List Char} (t : List Char)
    (h : a <:+: s) : a <:+: s ++ t := by
  obtain ⟨u, v, huv⟩ := h
  exact ⟨u, v ++ t, by rw [← huv]; simp⟩

lemma joinSep_infix_of_mem {sep : String} :
    ∀ {l : List String} {a : String}, a ∈ l →
      a.toList <:+: (joinSep sep l).toList := by
  intro l
  induction l with
  | nil => intro a h; simp at h
  | cons x xs ih =>
    intro a h
    cases xs with
    | nil =>
      rcases List.mem_cons.mp h with h1 | h1
      · subst h1; simp [joinSep]
      · simp at h1
    | cons y ys =>
      rcases List.mem_cons.mp h with h1 | h1
      · subst h1
        show a.toList <:+: (a ++ sep ++ joinSep sep (y :: ys)).toList
        rw [toList_append, toList_append]
        exact infix_append_left _ (infix_append_left _ List.infix_rfl)
      · show a.toList <:+: (x ++ sep ++ joinSep sep (y :: ys)).toList
        rw [toList_append]
        exact infix_append_right _ (ih h1)

lemma find_key_of_mem {l : List (String × ModelConfig)} {a : String}
    {c : ModelConfig} (hnd : (l.map Prod.fst).Nodup) (hmem : (a, c) ∈ l) :
    l.find? (fun p => p.1 == a) = some (a, c) := by
  induction l with
  | nil => simp at hmem
  | cons p t ih =>
    rw [List.map_cons, List.nodup_cons] at hnd
    rcases List.mem_cons.mp hmem with h | h
    · subst h
      exact List.find?_cons_of_pos _ (by simp)
    · have hne : (p.1 == a) = false := by
        refine beq_eq_false_iff_ne.mpr (fun he => hnd.1 ?_)
        exact he ▸ List.mem_map.mpr ⟨(a, c), h, rfl⟩
      rw [List.find?_cons_of_neg _ (by simp [hne])]
      exact ih hnd.2 h

lemma unknownModelMsg_head (r : ModelRegistry) (k : String) :
    (r.unknownModelMsg k).toList.head? = some 'U' := by
  unfold ModelRegistry.unknownModelMsg
  simp [toList_append, List.head?_append]

/-! ## Claims about the registry -/

/-- Claim C1: for every registry whose alias keys are distinct, an alias
`a` present in the map resolves to `(a, map entry for a)`; a key that is no
alias but equals the canonical `name` of a stored config resolves to that
config together with its alias; and on the default registry the full
identifier `BAAI/bge-small-en-v1.5` resolves exactly like the alias
`bge-small`. -/
theorem resolve_some_alias_and_identifier (r : ModelRegistry)
    (a k : String) (c : ModelConfig) :
    ((r.models.map Prod.fst).Nodup → (a, c) ∈ r.models →
      r.resolve (some a) = .ok (a, c)) ∧
    ((∀ p ∈ r.models, p.1 ≠ k) → (∃ p ∈ r.models, p.2.name = k) →
      ∃ als cfg, r.resolve (some k) = .ok (als, cfg) ∧ cfg.name = k ∧
        (als, cfg) ∈ r.models) ∧
    (defaultRegistry.resolve (some "BAAI/bge-small-en-v1.5") =
        defaultRegistry.resolve (some "bge-small") ∧
      defaultRegistry.resolve (some "bge-small") =
        .ok ("bge-small",
          { name := "BAAI/bge-small-en-v1.5"
            provider := "fastembed"
            dimensions := 384
            maxTokens := 512
            description := "Small, fast English embedding model" })) := by
  refine ⟨fun hnd hmem => ?_, fun halias hname => ?_, rfl, rfl⟩
  · have hfind := find_key_of_mem hnd hmem
    simp [ModelRegistry.resolve, ModelRegistry.resolveAliasOrName,
      ModelRegistry.get, hfind]
  · have hget : r.get k = none := by
      have : r.models.find? (fun p => p.1 == k) = none :=
        List.find?_eq_none.mpr (fun p hp => by simp [halias p hp])
      simp [ModelRegistry.get, this]
    obtain ⟨p, hp, hpk⟩ := hname
    have hsome : (r.models.find? (fun q => q.2.name == k)).isSome :=
      List.find?_isSome.mpr ⟨p, hp, by simp [hpk]⟩
    obtain ⟨q, hq⟩ := Option.isSome_iff_exists.mp hsome
    refine ⟨q.1, q.2, ?_, ?_, ?_⟩
    · simp [ModelRegistry.resolve, ModelRegistry.resolveAliasOrName, hget, hq]
    · simpa using List.find?_some hq
    · exact List.mem_of_find?_eq_some hq

/-- Witness for C1 on concrete inputs: the alias `minilm` resolves to its
map entry, and the canonical identifier `nomic-embed-text-v1.5` resolves to
a stored config whose name it is. -/
theorem resolve_some_alias_and_identifier_witness :
    defaultRegistry.resolve (some "minilm") =
      .ok ("minilm",
        { name := "sentence-transformers/all-MiniLM-L6-v2"
          provider := "fastembed"
          dimensions := 384
          maxTokens := 256
          description := "Lightweight English embedding model" }) ∧
    (∃ als cfg,
      defaultRegistry.resolve (some "nomic-embed-text-v1.5") =
        .ok (als, cfg) ∧ cfg.name = "nomic-embed-text-v1.5" ∧
        (als, cfg) ∈ defaultRegistry.models) :=
  ⟨(resolve_some_alias_and_identifier defaultRegistry "minilm"
      "nomic-embed-text-v1.5"
      { name := "sentence-transformers/all-MiniLM-L6-v2"
        provider := "fastembed"
        dimensions := 384
        maxTokens := 256
        description := "Lightweight English embedding model" }).1
      (by decide) (by decide),
   (resolve_some_alias_and_identifier defaultRegistry "minilm"
      "nomic-embed-text-v1.5"
      { name := "sentence-transformers/all-MiniLM-L6-v2"
        provider := "fastembed"
        dimensions := 384
        maxTokens := 256
        description := "Lightweight English embedding model" }).2.1
      (by decide) (by decide)⟩

/-- Two registries holding the same alias/config entries, inserted in
different iteration orders. -/
def permRegA : ModelRegistry where
  models :=
    [ ("a", { name := "nA", provider := "p", dimensions := 1,
              maxTokens := 1, description := "" }),
      ("b", { name := "nB", provider := "p", dimensions := 2,
              maxTokens := 2, description := "" }) ]
  defaultModel := "a"

/-- `permRegA` with its two entries swapped. -/
def permRegB : ModelRegistry where
  models :=
    [ ("b", { name := "nB", provider := "p", dimensions := 2,
              maxTokens := 2, description := "" }),
      ("a", { name := "nA", provider := "p", dimensions := 1,
              maxTokens := 1, description := "" }) ]
  defaultModel := "a"

/-- Counterexample to claim C7: two registries that are equal as maps (their
entry lists are permutations of each other, with the same default) enumerate
the aliases of the "unknown model" message in different orders, so the
enumeration order is not determined by registry equality. -/
theorem unknown_error_order_not_content_determined :
    permRegA.models.Perm permRegB.models ∧
    permRegA.defaultModel = permRegB.defaultModel ∧
    permRegA.resolve (some "zzz") ≠ permRegB.resolve (some "zzz") := by
  refine ⟨List.Perm.swap' _ _ (List.Perm.refl []), rfl, fun h => ?_⟩
  exact absurd (Except.error.inj h) (by decide)

/-- Claim C7 (amended): for every key that is neither an alias nor a
canonical identifier, `resolve` fails with a message that contains the key
and every valid alias; the aliases appear in the map's iteration order,
which is not determined by the registry's contents. -/
theorem unknown_error_message_lists_key_and_aliases (r : ModelRegistry)
    (k : String) (halias : ∀ p ∈ r.models, p.1 ≠ k)
    (hname : ∀ p ∈ r.models, p.2.name ≠ k) :
    r.resolve (some k) = .error (r.unknownModelMsg k) ∧
    strIncl k (r.unknownModelMsg k) ∧
    ∀ a ∈ r.models.map Prod.fst, strIncl a (r.unknownModelMsg k) := by
  refine ⟨?_, ?_, ?_⟩
  · have hget : r.models.find? (fun p => p.1 == k) = none :=
      List.find?_eq_none.mpr (fun p hp => by simp [halias p hp])
    have hfind : r.models.find? (fun p => p.2.name == k) = none :=
      List.find?_eq_none.mpr (fun p hp => by simp [hname p hp])
    simp [ModelRegistry.resolve, ModelRegistry.resolveAliasOrName,
      ModelRegistry.get, hget, hfind]
  · unfold ModelRegistry.unknownModelMsg strIncl
    simp only [toList_append]
    exact infix_append_left _ (infix_append_left _ (infix_append_left _
      (infix_append_right _ List.infix_rfl)))
  · intro a ha
    unfold ModelRegistry.unknownModelMsg strIncl
    simp only [toList_append]
    exact infix_append_right _
      (joinSep_infix_of_mem (l := r.models.map Prod.fst) ha)

/-- Witness for the amended C7 on the default registry with the unknown key
`zzz`. -/
theorem unknown_error_message_lists_key_and_aliases_witness :
    defaultRegistry.resolve (some "zzz") =
      .error (defaultRegistry.unknownModelMsg "zzz") ∧
    strIncl "zzz" (defaultRegistry.unknownModelMsg "zzz") ∧
    ∀ a ∈ defaultRegistry.models.map Prod.fst,
      strIncl a (defaultRegistry.unknownModelMsg "zzz") :=
  unknown_error_message_lists_key_and_aliases defaultRegistry "zzz"
    (by decide) (by decide)

/-- Claim C9: `resolve(None)` returns the default alias together with the
map entry of the default alias; when the default alias is missing from the
map it fails with the distinct "no default configured" message, which is
never equal to an "unknown model" message. -/
theorem resolve_none_default_config (r : ModelRegistry) (c : ModelConfig) :
    (r.get r.defaultModel = some c →
      r.resolve none = .ok (r.defaultModel, c)) ∧
    (r.get r.defaultModel = none →
      r.resolve none = .error "No default model configured in registry" ∧
      ∀ (r2 : ModelRegistry) (k : String),
        "No default model configured in registry" ≠ r2.unknownModelMsg k) := by
  constructor
  · intro h
    simp [ModelRegistry.resolve, ModelRegistry.getDefaultModel, h]
  · intro h
    refine ⟨by simp [ModelRegistry.resolve, ModelRegistry.getDefaultModel, h],
      fun r2 k he => ?_⟩
    have h2 := congrArg (fun s => s.toList.head?) he
    simp only at h2
    rw [unknownModelMsg_head] at h2
    exact absurd h2 (by decide)

/-- Witness for C9: the default registry resolves `None` to the `bge-small`
entry, and a registry whose default alias is missing from the map yields the
"no default configured" error. -/
theorem resolve_none_default_config_witness :
    defaultRegistry.resolve none =
      .ok ("bge-small",
        { name := "BAAI/bge-small-en-v1.5"
          provider := "fastembed"
          dimensions := 384
          maxTokens := 512
          description := "Small, fast English embedding model" }) ∧
    (ModelRegistry.mk [] "missing").resolve none =
      .error "No default model configured in registry" :=
  ⟨(resolve_none_default_config defaultRegistry
      { name := "BAAI/bge-small-en-v1.5"
        provider := "fastembed"
        dimensions := 384
        maxTokens := 512
        description := "Small, fast English embedding model" }).1 (by decide),
   ((resolve_none_default_config (ModelRegistry.mk [] "missing")
      { name := "", provider := "", dimensions := 0, maxTokens := 0,
        description := "" }).2 (by decide)).1⟩

/-! ## Batch builder lemmas -/

lemma fillRow_length (src : List Int) (len L : Nat) :
    (fillRow src len L).length = L := by simp [fillRow]

lemma fillRow_getElem (src : List Int) (len L j : Nat) (hj : j < L) :
    (fillRow src len L)[j]? = some (if j < len then src.getD j 0 else 0) := by
  unfold fillRow
  rw [List.getElem?_map _ _ j, List.getElem?_range hj]
  rfl

lemma fillRow_pad (src : List Int) (len L j : Nat) (h : len ≤ j) :
    ((fillRow src len L)[j]?).getD 0 = 0 := by
  rcases lt_or_ge j L with hj | hj
  · rw [fillRow_getElem src len L j hj]
    simp [Nat.not_lt.mpr h]
  · rw [List.getElem?_eq_none (by simpa [fillRow_length] using hj)]
    rfl

lemma seqLenOf_eq_of_max (maxLength : Nat) (encodings : List Encoding)
    (M : Nat) (h : (encodings.map encLen).max? = some M) :
    seqLenOf maxLength encodings = max (min M maxLength) 1 := by
  unfold seqLenOf
  rw [h]
  rfl

lemma seqLenOf_eq_maxLength (maxLength : Nat) (encodings : List Encoding)
    (i : Nat) (e : Encoding) (hmax : 1 ≤ maxLength)
    (hi : encodings[i]? = some e) (hover : maxLength < encLen e) :
    seqLenOf maxLength encodings = maxLength := by
  have hmem : encLen e ∈ encodings.map encLen :=
    List.mem_map.mpr ⟨e, List.getElem?_mem hi, rfl⟩
  obtain ⟨M, hM⟩ : ∃ M, (encodings.map encLen).max? = some M := by
    cases hmap : encodings.map encLen with
    | nil => exact absurd (hmap ▸ hmem) (List.not_mem_nil _)
    | cons a t => exact ⟨_, List.max?_cons⟩
  have hle : encLen e ≤ M := by
    have h2 : encLen e ≤ (encodings.map encLen).max?.getD 0 :=
      List.le_max?_getD_of_mem hmem
    rwa [hM, Option.getD_some] at h2
  rw [seqLenOf_eq_of_max _ _ _ hM]
  omega

lemma buildBatch_truncates (maxLength : Nat) (req : Bool)
    (encodings : List Encoding) (i : Nat) (e : Encoding)
    (hmax : 1 ≤ maxLength) (hi : encodings[i]? = some e)
    (hover : maxLength < encLen e) :
    (buildBatch maxLength req encodings).inputIds[i]? =
      some (fillRow e.ids maxLength maxLength) ∧
    (fillRow e.ids maxLength maxLength).length = maxLength ∧
    ∀ j, j < maxLength → (fillRow e.ids maxLength maxLength)[j]? = e.ids[j]? := by
  have hL := seqLenOf_eq_maxLength maxLength encodings i e hmax hi hover
  refine ⟨?_, fillRow_length _ _ _, fun j hj => ?_⟩
  · unfold buildBatch
    simp only [List.getElem?_map _ _ i, hi, Option.map_some, hL]
    have hm : encLen e ⊓ maxLength = maxLength := by omega
    simp [hm]
  · rw [fillRow_getElem _ _ _ _ hj]
    have hjlen : j < e.ids.length := lt_trans hj hover
    rw [List.getElem?_eq_getElem hjlen]
    simp [hj, List.getD, List.getElem?_eq_getElem hjlen]

/-! ## Claims about the batch builder -/

/-- Claim C5: for every non-empty batch, token-id and attention-mask arrays
have identical shape `(batch, seqLen)` with
`seqLen = min(max encoded length, max length)` floored at 1; a token-type
array of the same shape exists exactly when the graph requires it; positions
beyond each row's copied length stay zero; and a row whose encoding produced
no type ids stays all-zero. -/
theorem build_inputs_shape_invariants (maxLength : Nat) (req : Bool)
    (encodings : List Encoding) (_hne : encodings ≠ []) :
    ((buildBatch maxLength req encodings).inputIds.length =
        encodings.length ∧
      (buildBatch maxLength req encodings).attentionMask.length =
        encodings.length ∧
      (∀ row ∈ (buildBatch maxLength req encodings).inputIds,
        row.length = seqLenOf maxLength encodings) ∧
      (∀ row ∈ (buildBatch maxLength req encodings).attentionMask,
        row.length = seqLenOf maxLength encodings)) ∧
    (∀ M, (encodings.map encLen).max? = some M →
      seqLenOf maxLength encodings = max (min M maxLength) 1) ∧
    ((buildBatch maxLength req encodings).tokenTypes.isSome ↔ req = true) ∧
    (∀ tt, (buildBatch maxLength req encodings).tokenTypes = some tt →
      tt.length = encodings.length ∧
      ∀ row ∈ tt, row.length = seqLenOf maxLength encodings) ∧
    (∀ (i j : Nat) (e : Encoding), encodings[i]? = some e →
      min (encLen e) (seqLenOf maxLength encodings) ≤ j →
      ((((buildBatch maxLength req encodings).inputIds.getD i [])[j]?).getD 0
          = 0 ∧
        (((buildBatch maxLength req encodings).attentionMask.getD i
            [])[j]?).getD 0 = 0)) ∧
    (∀ (i : Nat) (e : Encoding) (tt : List (List Int)),
      encodings[i]? = some e → e.typeIds = [] →
      (buildBatch maxLength req encodings).tokenTypes = some tt →
      tt[i]? = some (List.replicate (seqLenOf maxLength encodings) 0)) := by
  refine ⟨⟨?_, ?_, ?_, ?_⟩, ?_, ?_, ?_, ?_, ?_⟩
  · simp [buildBatch]
  · simp [buildBatch]
  · intro row hrow
    simp only [buildBatch, List.mem_map] at hrow
    obtain ⟨e, _, he⟩ := hrow
    rw [← he, fillRow_length]
  · intro row hrow
    simp only [buildBatch, List.mem_map] at hrow
    obtain ⟨e, _, he⟩ := hrow
    rw [← he, fillRow_length]
  · exact fun M hM => seqLenOf_eq_of_max maxLength encodings M hM
  · cases req <;> simp [buildBatch]
  · intro tt htt
    cases req with
    | false => simp [buildBatch] at htt
    | true =>
      simp only [buildBatch, if_true] at htt
      rw [Option.some_inj] at htt
      subst htt
      refine ⟨by simp, fun row hrow => ?_⟩
      simp only [List.mem_map] at hrow
      obtain ⟨e, _, he⟩ := hrow
      rw [← he]
      split
      · simp
      · rw [fillRow_length]
  · intro i j e hi hj
    constructor
    · have : (buildBatch maxLength req encodings).inputIds[i]? =
          some (fillRow e.ids (min (encLen e) (seqLenOf maxLength encodings))
            (seqLenOf maxLength encodings)) := by
        simp [buildBatch, List.getElem?_map _ _ i, hi]
      rw [List.getD, List.get?_eq_getElem?, this, Option.getD_some]
      exact fillRow_pad _ _ _ _ hj
    · have : (buildBatch maxLength req encodings).attentionMask[i]? =
          some (fillRow e.attentionMask
            (min (encLen e) (seqLenOf maxLength encodings))
            (seqLenOf maxLength encodings)) := by
        simp [buildBatch, List.getElem?_map _ _ i, hi]
      rw [List.getD, List.get?_eq_getElem?, this, Option.getD_some]
      exact fillRow_pad _ _ _ _ hj
  · intro i e tt hi hty htt
    cases req with
    | false => simp [buildBatch] at htt
    | true =>
      simp only [buildBatch, if_true] at htt
      rw [Option.some_inj] at htt
      subst htt
      simp [List.getElem?_map _ _ i, hi, hty]

/-- A concrete two-encoding batch (a short row and an over-length row) used
to witness the batch-builder claims. -/
def testEncs : List Encoding :=
  [⟨[1, 2], [1, 1], []⟩, ⟨[5, 6, 7, 8, 9], [1, 1, 1, 1, 1], [0, 0, 0, 0, 0]⟩]

/-- Witness for C5 on `testEncs` with `max_length = 4` and a required
token-type input. -/
theorem build_inputs_shape_invariants_witness :
    (buildBatch 4 true testEncs).inputIds.length = 2 ∧
    seqLenOf 4 testEncs = max (min 5 4) 1 ∧
    (buildBatch 4 true testEncs).tokenTypes.isSome = true ∧
    ((((buildBatch 4 true testEncs).inputIds.getD 0 [])[2]?).getD 0 = 0 ∧
      (((buildBatch 4 true testEncs).attentionMask.getD 0 [])[2]?).getD 0
        = 0) ∧
    ([[(0 : Int), 0, 0, 0], [0, 0, 0, 0]])[0]? =
      some (List.replicate (seqLenOf 4 testEncs) 0) :=
  ⟨(build_inputs_shape_invariants 4 true testEncs (by decide)).1.1,
   (build_inputs_shape_invariants 4 true testEncs (by decide)).2.1 5
     (by decide),
   (build_inputs_shape_invariants 4 true testEncs (by decide)).2.2.1.mpr rfl,
   (build_inputs_shape_invariants 4 true testEncs (by decide)).2.2.2.2.1 0 2
     ⟨[1, 2], [1, 1], []⟩ rfl (by decide),
   (build_inputs_shape_invariants 4 true testEncs (by decide)).2.2.2.2.2 0
     ⟨[1, 2], [1, 1], []⟩ [[0, 0, 0, 0], [0, 0, 0, 0]] rfl rfl rfl⟩

/-- A session with no declared inputs whose forward pass always fails; the
batch builder never consults it. -/
def stubSession : Session := ⟨[], fun _ => .error "no engine"⟩

/-- Claim C6 (amended): when the embedding model's `max_tokens` is at least
1, a text whose encoding exceeds `max_tokens` gets a built tensor row of
exactly `max_tokens` tokens — the first `max_tokens` of the encoding — and
`build_inputs` still succeeds (silent truncation). -/
theorem embed_truncation_silent (m : MixedbreadEmbedder)
    (texts : List String) (encodings : List Encoding) (i : Nat)
    (e : Encoding) (hmax : 1 ≤ m.maxLength)
    (henc : texts.mapM m.tokenize = .ok encodings)
    (hi : encodings[i]? = some e) (hover : m.maxLength < encLen e) :
    ∃ bi, m.buildInputs texts = .ok bi ∧
      bi.inputIds[i]? = some (fillRow e.ids m.maxLength m.maxLength) ∧
      (fillRow e.ids m.maxLength m.maxLength).length = m.maxLength ∧
      ∀ j, j < m.maxLength →
        (fillRow e.ids m.maxLength m.maxLength)[j]? = e.ids[j]? := by
  refine ⟨buildBatch m.maxLength m.requiresTokenTypeIds encodings, ?_, ?_⟩
  · unfold MixedbreadEmbedder.buildInputs
    rw [henc]
    rfl
  · exact buildBatch_truncates m.maxLength m.requiresTokenTypeIds encodings
      i e hmax hi hover

/-- An embedder built from a config with `max_tokens = 0`, whose tokenizer
returns a two-token encoding for every text. -/
def zeroTokEmbedder : MixedbreadEmbedder :=
  MixedbreadEmbedder.new
    { name := "m", provider := "p", dimensions := 3, maxTokens := 0,
      description := "" }
    stubSession (fun _ => .ok ⟨[5, 6], [1, 1], []⟩)

/-- Counterexample to claim C6 as stated: with `max_tokens = 0` the encoded
text (2 tokens) exceeds `max_tokens`, yet the built row holds 1 token, not
`max_tokens = 0`, because the sequence length is floored at 1. -/
theorem embed_truncation_floor_counterexample :
    zeroTokEmbedder.maxLength = 0 ∧
    zeroTokEmbedder.tokenize "x" = .ok ⟨[5, 6], [1, 1], []⟩ ∧
    zeroTokEmbedder.maxLength < encLen ⟨[5, 6], [1, 1], []⟩ ∧
    ∃ bi, zeroTokEmbedder.buildInputs ["x"] = .ok bi ∧
      (bi.inputIds.getD 0 []).length = 1 ∧
      (bi.inputIds.getD 0 []).length ≠ zeroTokEmbedder.maxLength :=
  ⟨rfl, rfl, by decide,
   ⟨buildBatch 0 false [⟨[5, 6], [1, 1], []⟩], rfl, by decide, by decide⟩⟩

/-- An embedder built from a config with `max_tokens = 1`, whose tokenizer
returns a two-token encoding for every text. -/
def oneTokEmbedder : MixedbreadEmbedder :=
  MixedbreadEmbedder.new
    { name := "m", provider := "p", dimensions := 3, maxTokens := 1,
      description := "" }
    stubSession (fun _ => .ok ⟨[5, 6], [1, 1], []⟩)

/-- Witness for the amended C6: a two-token text against `max_tokens = 1`
is silently truncated to one token. -/
theorem embed_truncation_silent_witness :
    ∃ bi, oneTokEmbedder.buildInputs ["x"] = .ok bi ∧
      bi.inputIds[0]? = some (fillRow [5, 6] 1 1) ∧
      (fillRow [5, 6] 1 1).length = 1 ∧
      ∀ j, j < 1 → (fillRow [5, 6] 1 1)[j]? = ([5, 6] : List Int)[j]? :=
  embed_truncation_silent oneTokEmbedder ["x"] [⟨[5, 6], [1, 1], []⟩] 0
    ⟨[5, 6], [1, 1], []⟩ (by decide) rfl rfl (by decide)

/-- Claim C10: the reranker's sequence cap is the constant 512 regardless of
the rerank config used to construct it, and a (query, document) pair whose
dual encoding exceeds 512 tokens is truncated to exactly its first 512
tokens. -/
theorem rerank_max_length_const (config : RerankModelConfig)
    (sess : Session) (tok : String → String → Except String Encoding)
    (r : MixedbreadReranker) (query : String) (documents : List String)
    (encodings : List Encoding) (i : Nat) (e : Encoding)
    (hr : r.maxLength = 512)
    (henc : documents.mapM (fun doc => r.tokenizePair query doc) =
      .ok encodings)
    (hi : encodings[i]? = some e) (hover : 512 < encLen e) :
    (MixedbreadReranker.new config sess tok).maxLength = 512 ∧
    ∃ bi, r.buildInputs query documents = .ok bi ∧
      bi.inputIds[i]? = some (fillRow e.ids 512 512) ∧
      (fillRow e.ids 512 512).length = 512 ∧
      ∀ j, j < 512 → (fillRow e.ids 512 512)[j]? = e.ids[j]? := by
  refine ⟨rfl,
    ⟨buildBatch r.maxLength r.requiresTokenTypeIds encodings, ?_, ?_⟩⟩
  · unfold MixedbreadReranker.buildInputs
    rw [henc]
    rfl
  · rw [hr]
    exact buildBatch_truncates 512 r.requiresTokenTypeIds encodings i e
      (by norm_num) hi (hr ▸ hover)

/-- A 513-token dual encoding. -/
def enc513 : Encoding := ⟨List.replicate 513 7, List.replicate 513 1, []⟩

/-- A reranker whose tokenizer returns `enc513` for every pair. -/
def testReranker : MixedbreadReranker :=
  MixedbreadReranker.new { name := "m", provider := "p", description := "" }
    stubSession (fun _ _ => .ok enc513)

set_option maxRecDepth 8000 in
/-- Witness for C10: a 513-token pair is truncated to 512 tokens. -/
theorem rerank_max_length_const_witness :
    testReranker.maxLength = 512 ∧
    ∃ bi, testReranker.buildInputs "q" ["d"] = .ok bi ∧
      bi.inputIds[0]? = some (fillRow enc513.ids 512 512) ∧
      (fillRow enc513.ids 512 512).length = 512 ∧
      ∀ j, j < 512 → (fillRow enc513.ids 512 512)[j]? = enc513.ids[j]? :=
  rerank_max_length_const
    { name := "m", provider := "p", description := "" } stubSession
    (fun _ _ => .ok enc513) testReranker "q" ["d"] [enc513] 0 enc513 rfl rfl
    rfl (by simp [enc513, encLen])

/-! ## Post-processor lemmas -/

lemma sum_sq_nonneg (l : List ℚ) : 0 ≤ (l.map (fun x => x * x)).sum := by
  induction l with
  | nil => simp
  | cons a t ih => simpa using add_nonneg (mul_self_nonneg a) ih

lemma sum_sq_eq_zero_iff (l : List ℚ) :
    (l.map (fun x => x * x)).sum = 0 ↔ ∀ x ∈ l, x = 0 := by
  induction l with
  | nil => simp
  | cons a t ih =>
    simp only [List.map_cons, List.sum_cons, List.mem_cons]
    rw [add_eq_zero_iff_of_nonneg (mul_self_nonneg a) (sum_sq_nonneg t),
      mul_self_eq_zero, ih]
    constructor
    · rintro ⟨h1, h2⟩ x (rfl | hx)
      · exact h1
      · exact h2 x hx
    · intro h
      exact ⟨h a (Or.inl rfl), fun x hx => h x (Or.inr hx)⟩

lemma cast_sum_sq (l : List ℚ) :
    (((l.map (fun x => x * x)).sum : ℚ) : ℝ) =
      (l.map (fun x : ℚ => (x : ℝ) * (x : ℝ))).sum := by
  induction l with
  | nil => simp
  | cons a t ih => simp [ih]

lemma normalizeRow_length (row : List ℚ) (dim : Nat) :
    (normalizeRow row dim).length = dim := by
  simp only [normalizeRow]
  split <;> simp [List.length_take]

/-- The squared L2 norm of the output of `normalizeRow` is exactly 1 when
the copied region has a nonzero entry. -/
lemma normalizeRow_sum_sq (row : List ℚ) (dim : Nat)
    (h : ∃ x ∈ row.take (min row.length dim), x ≠ 0) :
    ((normalizeRow row dim).map (fun v => v * v)).sum = 1 := by
  set t := min row.length dim with ht
  set copied := row.take t with hcopied
  set N : ℚ := (copied.map (fun x => x * x)).sum with hN
  have hNpos : 0 < N := by
    rcases lt_or_eq_of_le (sum_sq_nonneg copied) with hlt | heq
    · exact hlt
    · obtain ⟨x, hx, hxne⟩ := h
      exact absurd ((sum_sq_eq_zero_iff copied).mp heq.symm x hx) hxne
  have hNcast : (0 : ℝ) < (N : ℝ) := by exact_mod_cast hNpos
  simp only [normalizeRow]
  rw [← ht, ← hcopied, ← hN, if_pos hNpos]
  rw [List.map_append, List.sum_append]
  have hrep : ((List.replicate (dim - t) (0 : ℝ)).map
      (fun v => v * v)).sum = 0 := by simp
  rw [hrep, add_zero, List.map_map]
  have hfun : ((fun v => v * v) ∘ fun v : ℚ => (v : ℝ) *
      (Real.sqrt (N : ℝ))⁻¹) =
      (fun v : ℚ => (Real.sqrt (N : ℝ))⁻¹ * (Real.sqrt (N : ℝ))⁻¹ *
        ((v : ℝ) * (v : ℝ))) := by
    funext v
    simp [Function.comp]
    ring
  rw [hfun]
  rw [List.sum_map_mul_left copied (fun v : ℚ => (v : ℝ) * (v : ℝ))
    ((Real.sqrt (N : ℝ))⁻¹ * (Real.sqrt (N : ℝ))⁻¹)]
  rw [← cast_sum_sq, ← hN]
  rw [← mul_inv]
  rw [Real.mul_self_sqrt (le_of_lt hNcast)]
  exact inv_mul_cancel₀ (ne_of_gt hNcast)

lemma normalizeRow_drop (row : List ℚ) (dim : Nat) :
    (normalizeRow row dim).drop (min row.length dim) =
      List.replicate (dim - min row.length dim) 0 := by
  simp only [normalizeRow]
  split <;>
  · apply List.drop_left'
    rw [List.length_map, List.length_take]
    omega

lemma normalizeRow_zero (row : List ℚ) (dim : Nat)
    (h : ∀ x ∈ row.take (min row.length dim), x = 0) :
    normalizeRow row dim = List.replicate dim 0 := by
  set t := min row.length dim with ht
  have hN : ((row.take t).map (fun x => x * x)).sum = 0 :=
    (sum_sq_eq_zero_iff _).mpr h
  simp only [normalizeRow]
  rw [← ht, if_neg (by rw [hN]; exact lt_irrefl 0)]
  have hmap : (row.take t).map (fun v : ℚ => (v : ℝ)) =
      List.replicate t 0 := by
    apply List.eq_replicate_iff.mpr
    refine ⟨by rw [List.length_map, List.length_take]; omega, ?_⟩
    intro b hb
    obtain ⟨x, hx, hbx⟩ := List.mem_map.mp hb
    rw [← hbx, h x hx]
    exact Rat.cast_zero
  rw [hmap, ← List.replicate_add]
  congr 1
  omega

/-! ## Claims about the post-processor -/

/-- Claim C3: `normalize_row` copies `min(raw_length, target_dim)` values
into a zero-initialized buffer of exactly `target_dim` entries; when the
copied region has a nonzero value the output's L2 norm is within `1e-4` of
1 (exactly 1 in exact arithmetic); when the copied region is all zero the
output is all-zero and no division happens. -/
theorem normalize_row_spec (row : List ℚ) (dim : Nat) :
    (normalizeRow row dim).length = dim ∧
    (normalizeRow row dim).drop (min row.length dim) =
      List.replicate (dim - min row.length dim) 0 ∧
    ((∃ x ∈ row.take (min row.length dim), x ≠ 0) →
      |Real.sqrt (((normalizeRow row dim).map (fun v => v * v)).sum) - 1| ≤
        1 / 10000) ∧
    ((∀ x ∈ row.take (min row.length dim), x = 0) →
      normalizeRow row dim = List.replicate dim 0) := by
  refine ⟨normalizeRow_length row dim, normalizeRow_drop row dim,
    fun h => ?_, normalizeRow_zero row dim⟩
  rw [normalizeRow_sum_sq row dim h, Real.sqrt_one, sub_self, abs_zero]
  norm_num

/-- Witness for C3: the row `[3, 4]` normalizes to unit norm, and the
all-zero row stays all-zero. -/
theorem normalize_row_spec_witness :
    (normalizeRow [3, 4] 2).length = 2 ∧
    |Real.sqrt (((normalizeRow [3, 4] 2).map (fun v => v * v)).sum) - 1| ≤
      1 / 10000 ∧
    normalizeRow [0, 0, 0] 2 = List.replicate 2 0 :=
  ⟨(normalize_row_spec [3, 4] 2).1,
   (normalize_row_spec [3, 4] 2).2.2.1 ⟨3, by decide, by norm_num⟩,
   (normalize_row_spec [0, 0, 0] 2).2.2.2 (by decide)⟩

/-- Claim C8: the embedding post-processor succeeds exactly on tensors of
rank 2 or 3; rank 2 uses each batch row directly, rank 3 takes only the
first token's vector along the middle axis per batch row, and any other
rank yields the "unexpected tensor rank" error. -/
theorem normalize_rank_dispatch (t : NdTensor) (dim : Nat) :
    ((normalizeTensor t dim).isOk ↔ t.ndim = 2 ∨ t.ndim = 3) ∧
    (∀ b c, t.shape = [b, c] →
      normalizeTensor t dim =
        .ok ((List.range b).map (fun i => normalizeRow (t.row2 c i) dim))) ∧
    (∀ b s c, t.shape = [b, s, c] →
      normalizeTensor t dim =
        .ok ((List.range b).map (fun i =>
          normalizeRow (t.firstToken3 s c i) dim))) ∧
    (¬ (t.ndim = 2 ∨ t.ndim = 3) →
      normalizeTensor t dim =
        .error ("Unexpected embedding tensor rank: " ++ toString t.ndim)) := by
  obtain ⟨shape, data⟩ := t
  rcases shape with _ | ⟨b, _ | ⟨s, _ | ⟨c, _ | ⟨d, rest⟩⟩⟩⟩ <;>
    simp [normalizeTensor, NdTensor.ndim, Except.isOk, Except.toBool]

/-- Witness for C8: a rank-2 tensor is processed row-wise and a rank-1
tensor is rejected with the rank error. -/
theorem normalize_rank_dispatch_witness :
    normalizeTensor ⟨[1, 2], [3, 4]⟩ 2 =
      .ok ((List.range 1).map (fun i =>
        normalizeRow ((⟨[1, 2], [3, 4]⟩ : NdTensor).row2 2 i) 2)) ∧
    normalizeTensor ⟨[2], [3, 4]⟩ 2 =
      .error ("Unexpected embedding tensor rank: " ++ toString 1) :=
  ⟨(normalize_rank_dispatch ⟨[1, 2], [3, 4]⟩ 2).2.1 1 2 rfl,
   (normalize_rank_dispatch ⟨[2], [3, 4]⟩ 2).2.2.2 (by decide)⟩

lemma normalizeTensor_rank2 (t : NdTensor) (dim b c : Nat)
    (h : t.shape = [b, c]) :
    normalizeTensor t dim =
      .ok ((List.range b).map (fun i => normalizeRow (t.row2 c i) dim)) := by
  obtain ⟨shape, data⟩ := t
  simp only at h
  subst h
  rfl

lemma normalizeTensor_rank3 (t : NdTensor) (dim b s c : Nat)
    (h : t.shape = [b, s, c]) :
    normalizeTensor t dim =
      .ok ((List.range b).map (fun i =>
        normalizeRow (t.firstToken3 s c i) dim)) := by
  obtain ⟨shape, data⟩ := t
  simp only at h
  subst h
  rfl

lemma toIx2_rank2 (t : NdTensor) (b c : Nat) (h : t.shape = [b, c]) :
    toIx2 t = .ok ((List.range b).map (fun i => t.row2 c i)) := by
  obtain ⟨shape, data⟩ := t
  simp only at h
  subst h
  rfl

lemma sigmoid_nonneg (x : ℚ) : 0 ≤ sigmoid x := by
  unfold sigmoid
  have hd : (0 : ℝ) < 1 + Real.exp (-(x : ℝ)) :=
    add_pos one_pos (Real.exp_pos _)
  exact div_nonneg zero_le_one (le_of_lt hd)

lemma sigmoid_le_one (x : ℚ) : sigmoid x ≤ 1 := by
  unfold sigmoid
  have hd : (0 : ℝ) < 1 + Real.exp (-(x : ℝ)) :=
    add_pos one_pos (Real.exp_pos _)
  rw [div_le_one hd]
  exact le_add_of_nonneg_right (le_of_lt (Real.exp_pos _))

/-! ## Claims about the facades -/

/-- Claim C2: a successful `embed` on a non-empty batch (with the engine
returning a tensor whose leading dimension is the batch size) yields exactly
one vector per input text, each of length exactly `dim`, regardless of the
raw tensor's width; and `embed` of an empty list returns an empty list for
every embedder, never touching the engine. -/
theorem embed_len_and_dim (m : MixedbreadEmbedder) (texts : List String)
    (bi : BuiltInputs) (t : NdTensor) (hne : texts ≠ [])
    (hbi : m.buildInputs texts = .ok bi)
    (hrun : m.session.run bi = .ok t)
    (hshape : (∃ c, t.shape = [texts.length, c]) ∨
      (∃ s c, t.shape = [texts.length, s, c])) :
    (∃ vecs, m.embed texts = .ok vecs ∧ vecs.length = texts.length ∧
      ∀ v ∈ vecs, v.length = m.dim) ∧
    ∀ (m2 : MixedbreadEmbedder), m2.embed [] = .ok [] := by
  constructor
  · have hembed : m.embed texts = normalizeTensor t m.dim := by
      unfold MixedbreadEmbedder.embed
      rw [if_neg (by simp [hne]), hbi]
      show m.session.run bi >>= (fun tensor => normalizeTensor tensor m.dim)
        = _
      rw [hrun]
      rfl
    rcases hshape with ⟨c, hs⟩ | ⟨s, c, hs⟩
    · refine ⟨(List.range texts.length).map
        (fun i => normalizeRow (t.row2 c i) m.dim), ?_, by simp, ?_⟩
      · rw [hembed, normalizeTensor_rank2 t m.dim texts.length c hs]
      · intro v hv
        obtain ⟨i, _, hvi⟩ := List.mem_map.mp hv
        rw [← hvi, normalizeRow_length]
    · refine ⟨(List.range texts.length).map
        (fun i => normalizeRow (t.firstToken3 s c i) m.dim), ?_, by simp, ?_⟩
      · rw [hembed, normalizeTensor_rank3 t m.dim texts.length s c hs]
      · intro v hv
        obtain ⟨i, _, hvi⟩ := List.mem_map.mp hv
        rw [← hvi, normalizeRow_length]
  · intro m2
    simp [MixedbreadEmbedder.embed]

/-- A concrete embedder: one-token tokenizer, engine returning the rank-2
tensor `(1, 2)` with data `[3, 4]`, config dimensionality 2. -/
def testEmbedder : MixedbreadEmbedder :=
  MixedbreadEmbedder.new
    { name := "m", provider := "p", dimensions := 2, maxTokens := 4,
      description := "" }
    ⟨["input_ids"], fun _ => .ok ⟨[1, 2], [3, 4]⟩⟩
    (fun _ => .ok ⟨[1], [1], []⟩)

/-- Witness for C2 on `testEmbedder` with one input text. -/
theorem embed_len_and_dim_witness :
    (∃ vecs, testEmbedder.embed ["hi"] = .ok vecs ∧ vecs.length = 1 ∧
      ∀ v ∈ vecs, v.length = 2) ∧
    testEmbedder.embed [] = .ok [] :=
  ⟨(embed_len_and_dim testEmbedder ["hi"]
      (buildBatch 4 false [⟨[1], [1], []⟩]) ⟨[1, 2], [3, 4]⟩ (by decide)
      rfl rfl (Or.inl ⟨2, rfl⟩)).1,
   (embed_len_and_dim testEmbedder ["hi"]
      (buildBatch 4 false [⟨[1], [1], []⟩]) ⟨[1, 2], [3, 4]⟩ (by decide)
      rfl rfl (Or.inl ⟨2, rfl⟩)).2 testEmbedder⟩

/-- Claim C4: a successful `rerank` (with the engine returning one logit row
per document) yields one result per document in input order, with
`results[i].document = documents[i]`, `results[i].query = query`, the score
equal to the sigmoid of the row's logit and lying in `[0, 1]`; no sorting is
performed, and an empty document list yields an empty result list for every
reranker. -/
theorem rerank_order_and_scores (r : MixedbreadReranker) (query : String)
    (documents : List String) (bi : BuiltInputs) (t : NdTensor) (c : Nat)
    (hne : documents ≠ [])
    (hbi : r.buildInputs query documents = .ok bi)
    (hrun : r.session.run bi = .ok t)
    (hshape : t.shape = [documents.length, c]) :
    (∃ results, r.rerank query documents = .ok results ∧
      results.length = documents.length ∧
      ∀ i, i < documents.length →
        ∃ res, results[i]? = some res ∧
          res.document = documents.getD i "" ∧
          res.query = query ∧
          res.score = sigmoid (headLogit (t.row2 c i)) ∧
          0 ≤ res.score ∧ res.score ≤ 1) ∧
    ∀ (r2 : MixedbreadReranker) (q2 : String), r2.rerank q2 [] = .ok [] := by
  constructor
  · have hlogits := toIx2_rank2 t documents.length c hshape
    have hrr : r.rerank query documents =
        .ok (((List.range documents.length).map
            (fun i => t.row2 c i)).enum.map (fun p =>
          { query := query
            document := documents.getD p.1 ""
            score := sigmoid (headLogit p.2) })) := by
      unfold MixedbreadReranker.rerank
      rw [if_neg (by simp [hne]), hbi]
      show r.session.run bi >>= _ = _
      rw [hrun]
      show toIx2 t >>= _ = _
      rw [hlogits]
      rfl
    refine ⟨_, hrr, by simp, fun i hi => ?_⟩
    refine ⟨{ query := query
              document := documents.getD i ""
              score := sigmoid (headLogit (t.row2 c i)) }, ?_, rfl, rfl,
      rfl, sigmoid_nonneg _, sigmoid_le_one _⟩
    rw [List.getElem?_map, List.getElem?_enum,
      List.getElem?_map _ _ i, List.getElem?_range hi]
    rfl
  · intro r2 q2
    simp [MixedbreadReranker.rerank]

/-- A concrete reranker whose engine returns the single logit 0 (score
sigmoid(0) = 1/2). -/
def testScorer : MixedbreadReranker :=
  MixedbreadReranker.new { name := "m", provider := "p", description := "" }
    ⟨[], fun _ => .ok ⟨[1, 1], [0]⟩⟩ (fun _ _ => .ok ⟨[1], [1], []⟩)

/-- Witness for C4 on `testScorer` with one document. -/
theorem rerank_order_and_scores_witness :
    (∃ results, testScorer.rerank "q" ["d"] = .ok results ∧
      results.length = 1 ∧
      ∀ i, i < 1 →
        ∃ res, results[i]? = some res ∧
          res.document = (["d"].getD i "") ∧
          res.query = "q" ∧
          res.score = sigmoid (headLogit
            ((⟨[1, 1], [0]⟩ : NdTensor).row2 1 i)) ∧
          0 ≤ res.score ∧ res.score ≤ 1) ∧
    testScorer.rerank "q" [] = .ok [] :=
  ⟨(rerank_order_and_scores testScorer "q" ["d"]
      (buildBatch 512 false [⟨[1], [1], []⟩]) ⟨[1, 1], [0]⟩ 1 (by decide)
      rfl rfl rfl).1,
   (rerank_order_and_scores testScorer "q" ["d"]
      (buildBatch 512 false [⟨[1], [1], []⟩]) ⟨[1, 1], [0]⟩ 1 (by decide)
      rfl rfl rfl).2 testScorer "q"⟩
